import Mathlib

/-!
Verification of the reviewer workload aggregation and badge-classification
engine of an Azure DevOps pull-request client.

The engine lives in src/tools/ReviewerStatsTool.ts:
  - vote classification (lines 304-313 of reviewerStats),
  - per-reviewer aggregation over non-draft PRs (lines 271-322),
  - sorting (lines 324-327),
  - badge assignment (assignBadges, lines 48-136),
  - markdown table rendering (generateMarkdownTable, lines 158-225).
An independent PowerShell operational script (reviewer-stats-discord)
re-implements the same aggregation and badge logic; it is embedded here as
well for the comparison theorems.

Modelling conventions:
  - TypeScript optional fields become Option; the source's defaulting
    idioms (x || 0, x?.f || "", x.getD) are translated with Option.getD.
  - JavaScript numbers holding counts are Nat; raw votes are Int.
  - JavaScript floating-point rate arithmetic is modelled with Rat.
  - A JS Map is an association list in insertion order: Map.set of a new
    key appends, of an existing key updates in place, and iteration order
    is insertion order.
  - Array.prototype.sort with a comparator is stable (ECMA-262), so it is
    modelled by List.insertionSort on the relation "comparator ≤ 0".
  - String.prototype.toLowerCase is modelled character-wise (the inputs of
    interest are ASCII emails).
-/

/-- JS s.toLowerCase(), character-wise (ASCII-faithful). -/
def toLowerStr (s : String) : String := String.mk (s.data.map Char.toLower)

/-- One reviewer assignment on a PR, as delivered by the Azure DevOps API
(fields IdentityRefWithVote.uniqueName / displayName / isRequired / vote;
all optional on the wire). -/
structure ReviewerAssignment where
  uniqueName : Option String
  displayName : Option String
  isRequired : Option Bool
  vote : Option Int
deriving DecidableEq, Repr, Inhabited

/-- One pull-request summary (GitPullRequest fields used by the engine). -/
structure PullRequestSummary where
  pullRequestId : Option Nat
  title : Option String
  isDraft : Option Bool
  reviewers : Option (List ReviewerAssignment)
deriving DecidableEq, Repr, Inhabited

/-- Detail record appended to ReviewerStat.prs (ReviewerStatsTool.ts lines 315-320). -/
structure PRDetail where
  id : Nat
  title : String
  isRequired : Bool
  vote : String
deriving DecidableEq, Repr, Inhabited

/-- Per-reviewer statistics (interface ReviewerStat, ReviewerStatsTool.ts lines 14-30). -/
structure ReviewerStat where
  displayName : String
  email : String
  requiredCount : Nat
  optionalCount : Nat
  totalCount : Nat
  approvedCount : Nat
  pendingCount : Nat
  waitingForAuthorCount : Nat
  rejectedCount : Nat
  prs : List PRDetail
deriving DecidableEq, Repr, Inhabited

/-- The four vote outcome buckets. -/
inductive VoteBucket where
  | approved
  | waitingForAuthor
  | rejected
  | pending
deriving DecidableEq, Repr

/-- Vote classification chain of ReviewerStatsTool.ts lines 305-313:
vote >= 10 approved, else vote === -5 waiting, else vote <= -10 rejected,
else pending. -/
def classifyVote (vote : Int) : VoteBucket :=
  if 10 ≤ vote then VoteBucket.approved
  else if vote = -5 then VoteBucket.waitingForAuthor
  else if vote ≤ -10 then VoteBucket.rejected
  else VoteBucket.pending

/-- VoteLabels lookup of src/types.ts lines 93-99. -/
def voteLabel (vote : Int) : Option String :=
  if vote = 10 then some "Approved"
  else if vote = 5 then some "Approved with suggestions"
  else if vote = 0 then some "No vote"
  else if vote = -5 then some "Waiting for author"
  else if vote = -10 then some "Rejected"
  else none

/-- Association-list lookup keyed by String (models JS Map.has / Map.get). -/
def lookupKey {σ : Type} : List (String × σ) → String → Option σ
  | [], _ => none
  | (k, v) :: rest, key => if k = key then some v else lookupKey rest key

/-- Association-list update (models JS Map.set: existing keys update in
place, new keys append; iteration order is insertion order). -/
def setKey {σ : Type} : List (String × σ) → String → σ → List (String × σ)
  | [], key, v => [(key, v)]
  | (k, w) :: rest, key, v =>
    if k = key then (key, v) :: rest else (k, w) :: setKey rest key v

/-- The aggregation key: reviewer.uniqueName?.toLowerCase() || ""
(ReviewerStatsTool.ts line 282). Lower-casing only — no trimming. -/
def revKey (rev : ReviewerAssignment) : String :=
  toLowerStr (rev.uniqueName.getD "")

/-- The freshly created ReviewerStat of ReviewerStatsTool.ts lines 286-297. -/
def freshStat (rev : ReviewerAssignment) : ReviewerStat :=
  { displayName := rev.displayName.getD "Unknown"
    email := rev.uniqueName.getD ""
    requiredCount := 0
    optionalCount := 0
    totalCount := 0
    approvedCount := 0
    pendingCount := 0
    waitingForAuthorCount := 0
    rejectedCount := 0
    prs := [] }

/-- The per-assignment mutation of ReviewerStatsTool.ts lines 300-320:
bump totalCount and requiredCount, bump the bucket selected by the vote
chain, append a detail record. -/
def extendStat (pr : PullRequestSummary) (rev : ReviewerAssignment)
    (s : ReviewerStat) : ReviewerStat :=
  let vote := rev.vote.getD 0
  let s1 := { s with totalCount := s.totalCount + 1, requiredCount := s.requiredCount + 1 }
  let s2 :=
    match classifyVote vote with
    | VoteBucket.approved => { s1 with approvedCount := s1.approvedCount + 1 }
    | VoteBucket.waitingForAuthor =>
        { s1 with waitingForAuthorCount := s1.waitingForAuthorCount + 1 }
    | VoteBucket.rejected => { s1 with rejectedCount := s1.rejectedCount + 1 }
    | VoteBucket.pending => { s1 with pendingCount := s1.pendingCount + 1 }
  { s2 with prs := s2.prs ++
      [{ id := pr.pullRequestId.getD 0
         title := pr.title.getD ""
         isRequired := true
         vote := (voteLabel vote).getD "No vote" }] }

/-- The reviewer map being built (Map<string, ReviewerStat>). -/
abbrev StatsMap : Type := List (String × ReviewerStat)

/-- Body of the inner reviewer loop (ReviewerStatsTool.ts lines 278-321):
skip non-required assignments, skip empty normalized emails, otherwise
create-if-absent and mutate the keyed ReviewerStat. -/
def processReviewer (pr : PullRequestSummary) (m : StatsMap)
    (rev : ReviewerAssignment) : StatsMap :=
  if rev.isRequired.getD false = false then m
  else if revKey rev = "" then m
  else setKey m (revKey rev)
    (extendStat pr rev ((lookupKey m (revKey rev)).getD (freshStat rev)))

/-- Body of the outer PR loop (pr.reviewers || []). -/
def processPR (m : StatsMap) (pr : PullRequestSummary) : StatsMap :=
  (pr.reviewers.getD []).foldl (processReviewer pr) m

/-- Draft filter of ReviewerStatsTool.ts line 272. -/
def nonDraftPRs (prs : List PullRequestSummary) : List PullRequestSummary :=
  prs.filter (fun pr => !(pr.isDraft.getD false))

/-- The aggregation pass of reviewerStats (lines 271-322): discovery-ordered
map of ReviewerStat keyed by normalized email. -/
def statsMapOf (prs : List PullRequestSummary) : StatsMap :=
  (nonDraftPRs prs).foldl processPR []

/-- The sort comparator of ReviewerStatsTool.ts line 326:
(a, b) => b.requiredCount - a.requiredCount || b.totalCount - a.totalCount. -/
def cmpStats (a b : ReviewerStat) : Int :=
  if (b.requiredCount : Int) - (a.requiredCount : Int) ≠ 0 then
    (b.requiredCount : Int) - (a.requiredCount : Int)
  else (b.totalCount : Int) - (a.totalCount : Int)

/-- "a may precede b" for the comparator: cmpStats a b ≤ 0. -/
def statLE (a b : ReviewerStat) : Prop := cmpStats a b ≤ 0

instance : DecidableRel statLE :=
  fun a b => inferInstanceAs (Decidable (cmpStats a b ≤ 0))

instance : IsTotal ReviewerStat statLE :=
  ⟨by
    intro a b
    unfold statLE cmpStats
    split_ifs <;> omega⟩

instance : IsTrans ReviewerStat statLE :=
  ⟨by
    intro a b c
    unfold statLE cmpStats
    split_ifs <;> omega⟩

/-- Array.prototype.sort with the line-326 comparator: the unique stable
order consistent with the comparator, modelled by stable insertion sort. -/
def sortStats (l : List ReviewerStat) : List ReviewerStat :=
  List.insertionSort statLE l

/-- The reviewers list returned by the tool (sortedStats, lines 324-327). -/
def reviewerStatsOf (prs : List PullRequestSummary) : List ReviewerStat :=
  sortStats ((statsMapOf prs).map (fun e => e.2))

/-- Combined per-entry invariant of the aggregation: the four outcome
buckets partition the required assignments, optional assignments are never
accumulated, totalCount mirrors requiredCount. -/
def StatOk (s : ReviewerStat) : Prop :=
  s.approvedCount + s.waitingForAuthorCount + s.rejectedCount + s.pendingCount
      = s.requiredCount ∧
  s.optionalCount = 0 ∧ s.totalCount = s.requiredCount

/-- completionRate = approvedCount / requiredCount (assignBadges line 55). -/
def completionRate (r : ReviewerStat) : ℚ :=
  (r.approvedCount : ℚ) / (r.requiredCount : ℚ)

/-- unreviewedRate = pendingCount / requiredCount (assignBadges line 56). -/
def unreviewedRate (r : ReviewerStat) : ℚ :=
  (r.pendingCount : ℚ) / (r.requiredCount : ℚ)

/-- isHighVolume = requiredCount >= avgRequired * 1.5 (line 57). -/
def isHighVolume (avgRequired : ℚ) (r : ReviewerStat) : Prop :=
  (r.requiredCount : ℚ) ≥ avgRequired * 1.5

/-- isLowVolume = requiredCount <= max(1, avgRequired * 0.5) (line 58). -/
def isLowVolume (avgRequired : ℚ) (r : ReviewerStat) : Prop :=
  (r.requiredCount : ℚ) ≤ max 1 (avgRequired * 0.5)

/-- isMedVolume = !isHighVolume && !isLowVolume (line 59). -/
def isMedVolume (avgRequired : ℚ) (r : ReviewerStat) : Prop :=
  ¬ isHighVolume avgRequired r ∧ ¬ isLowVolume avgRequired r

instance (avg : ℚ) (r : ReviewerStat) : Decidable (isHighVolume avg r) :=
  inferInstanceAs (Decidable (_ ≥ _))

instance (avg : ℚ) (r : ReviewerStat) : Decidable (isLowVolume avg r) :=
  inferInstanceAs (Decidable (_ ≤ _))

instance (avg : ℚ) (r : ReviewerStat) : Decidable (isMedVolume avg r) :=
  inferInstanceAs (Decidable (¬ _ ∧ ¬ _))

/-- avgRequired of assignBadges line 50:
stats.reduce((sum, r) => sum + r.requiredCount, 0) / stats.length || 0.
The || 0 only fires for the NaN produced by 0 / 0 on an empty list. -/
def avgRequiredOf (stats : List ReviewerStat) : ℚ :=
  if stats.length = 0 then 0
  else (stats.foldl (fun sum r => sum + (r.requiredCount : ℚ)) 0) / (stats.length : ℚ)

/-- Badge record (ReviewerStatsTool.ts lines 38-42). -/
structure Badge where
  emoji : String
  title : String
  description : String
deriving DecidableEq, Repr

/-- ReviewerBadge extends Badge with the reviewer (lines 44-46). -/
structure ReviewerBadge extends Badge where
  reviewer : ReviewerStat
deriving DecidableEq, Repr

/-- Pluralization used in the badge descriptions: x === 1 ? "" : "s". -/
def plural (n : Nat) : String := if n = 1 then "" else "s"

/-- The if / else-if badge chain of assignBadges (lines 52-133) for one
reviewer.  The source pushes at most one badge per reviewer from this
chain; reviewers with requiredCount === 0 are skipped by the continue on
line 53. -/
def badgeForReviewer (avgRequired : ℚ) (r : ReviewerStat) : Option ReviewerBadge :=
  if r.requiredCount = 0 then none
  else if isHighVolume avgRequired r ∧ completionRate r ≥ 0.8 then
    some { emoji := "🦸", title := "Super Reviewer"
           description := r.displayName ++ " is crushing it with " ++
             toString r.approvedCount ++ "/" ++ toString r.requiredCount ++
             " reviews complete!"
           reviewer := r }
  else if isHighVolume avgRequired r ∧ unreviewedRate r ≥ 0.5 then
    some { emoji := "🆘", title := "Needs Backup"
           description := r.displayName ++ " has " ++ toString r.pendingCount ++
             " unreviewed PRs - someone throw them a lifeline!"
           reviewer := r }
  else if (isLowVolume avgRequired r ∨ isMedVolume avgRequired r) ∧
      unreviewedRate r ≥ 0.7 ∧ r.pendingCount ≥ 2 then
    some { emoji := "😴", title := "Needs Coffee"
           description := r.displayName ++ " has " ++ toString r.pendingCount ++
             " PRs waiting... wakey wakey!"
           reviewer := r }
  else if isLowVolume avgRequired r ∧ r.requiredCount ≤ 1 then
    some { emoji := "🪑", title := "Benchwarmer"
           description := r.displayName ++ " is barely in the game with only " ++
             toString r.requiredCount ++ " PR" ++ plural r.requiredCount ++
             ". Put them in, coach!"
           reviewer := r }
  else if r.requiredCount ≥ 2 ∧ completionRate r = 1 then
    some { emoji := "✨", title := "Flawless"
           description := r.displayName ++ " has reviewed every single PR assigned. Respect."
           reviewer := r }
  else if r.rejectedCount ≥ 1 then
    some { emoji := "🚫", title := "Gatekeeper"
           description := r.displayName ++ " isn\x27t afraid to say no - " ++
             toString r.rejectedCount ++ " rejection" ++ plural r.rejectedCount ++
             " and counting."
           reviewer := r }
  else if r.waitingForAuthorCount ≥ 2 then
    some { emoji := "⏳", title := "Waiting Room"
           description := r.displayName ++ " is stuck waiting on authors for " ++
             toString r.waitingForAuthorCount ++ " PRs. Ball\x27s in your court, devs!"
           reviewer := r }
  else if isMedVolume avgRequired r ∧ completionRate r ≥ 0.7 then
    some { emoji := "⚡", title := "Speed Demon"
           description := r.displayName ++ " is keeping the pipeline moving with " ++
             toString r.approvedCount ++ "/" ++ toString r.requiredCount ++ " done."
           reviewer := r }
  else none

/-- assignBadges (ReviewerStatsTool.ts lines 48-136): one pass over stats,
pushing the chain result for each reviewer. -/
def assignBadges (stats : List ReviewerStat) : List ReviewerBadge :=
  stats.filterMap (badgeForReviewer (avgRequiredOf stats))

/-- pickRandomBadge (lines 138-141), with the random draw
Math.floor(Math.random() * badges.length) injected as an index; an empty
list yields null. -/
def pickRandomBadge (k : Nat) (badges : List ReviewerBadge) : Option ReviewerBadge :=
  badges[k % badges.length]?

/-- JS s.padEnd(w) with spaces. -/
def padEnd (s : String) (w : Nat) : String :=
  s ++ String.mk (List.replicate (w - s.length) ' ')

/-- JS s.padStart(w) with spaces. -/
def padStart (s : String) (w : Nat) : String :=
  String.mk (List.replicate (w - s.length) ' ') ++ s

/-- JS "-".repeat(w). -/
def dashes (w : Nat) : String := String.mk (List.replicate w '-')

/-- The display-time filter of generateMarkdownTable line 164. -/
def displayFilter (stats : List ReviewerStat) (requiredOnly : Bool) : List ReviewerStat :=
  if requiredOnly then stats.filter (fun r => decide (0 < r.requiredCount)) else stats

/-- Name column width: Math.max(8, ...displayName lengths) (line 172). -/
def nameWidthOf (filtered : List ReviewerStat) : Nat :=
  filtered.foldl (fun w r => max w r.displayName.length) 8

def reqOnlyHeaders : List String :=
  ["Reviewer", "Required", "Approved", "Waiting for Author", "Rejected", "Unreviewed"]

def reqOnlyWidths (nameWidth : Nat) : List Nat := [nameWidth, 8, 8, 18, 8, 10]

def fullHeaders : List String :=
  ["Reviewer", "Required", "Optional", "Total", "Approved", "Waiting for Author",
   "Rejected", "Unreviewed"]

def fullWidths (nameWidth : Nat) : List Nat := [nameWidth, 8, 8, 5, 8, 18, 8, 10]

/-- headers.map((h, i) => h.padEnd(widths[i])).join("  "). -/
def headerRow (headers : List String) (widths : List Nat) : String :=
  String.intercalate "  " ((headers.zip widths).map (fun p => padEnd p.1 p.2))

/-- widths.map(w => "-".repeat(w)).join("  "). -/
def sepRow (widths : List Nat) : String :=
  String.intercalate "  " (widths.map dashes)

/-- A data row of the required-only view (lines 183-191). -/
def reqOnlyRow (nameWidth : Nat) (r : ReviewerStat) : String :=
  String.intercalate "  "
    [padEnd r.displayName nameWidth,
     padStart (toString r.requiredCount) 8,
     padStart (toString r.approvedCount) 8,
     padStart (toString r.waitingForAuthorCount) 18,
     padStart (toString r.rejectedCount) 8,
     padStart (toString r.pendingCount) 10]

/-- A data row of the full view (lines 202-213). -/
def fullRow (nameWidth : Nat) (r : ReviewerStat) : String :=
  String.intercalate "  "
    [padEnd r.displayName nameWidth,
     padStart (toString r.requiredCount) 8,
     padStart (toString r.optionalCount) 8,
     padStart (toString r.totalCount) 5,
     padStart (toString r.approvedCount) 8,
     padStart (toString r.waitingForAuthorCount) 18,
     padStart (toString r.rejectedCount) 8,
     padStart (toString r.pendingCount) 10]

/-- generateMarkdownTable (lines 158-225) as its list of lines, with the
random badge draw injected as rnd.  The empty-filter branch (lines
166-169) returns just the heading line and "No reviewers found.". -/
def generateMarkdownLines (rnd : Nat) (stats : List ReviewerStat)
    (totalPRs : Nat) (requiredOnly : Bool) : List String :=
  let firstLine := "Reviewer Statistics (" ++ toString totalPRs ++ " Active PRs)\n"
  let filtered := displayFilter stats requiredOnly
  if filtered.length = 0 then [firstLine, "No reviewers found."]
  else
    let nameWidth := nameWidthOf filtered
    let headerLines :=
      if requiredOnly then
        [headerRow reqOnlyHeaders (reqOnlyWidths nameWidth), sepRow (reqOnlyWidths nameWidth)]
      else
        [headerRow fullHeaders (fullWidths nameWidth), sepRow (fullWidths nameWidth)]
    let dataLines :=
      if requiredOnly then filtered.map (reqOnlyRow nameWidth)
      else filtered.map (fullRow nameWidth)
    let base := firstLine :: (headerLines ++ dataLines)
    match pickRandomBadge rnd (assignBadges filtered) with
    | some b => base ++ ["", b.emoji ++ " " ++ b.title ++ ": " ++ b.description]
    | none => base

/-- The rendered report: lines.join("\n"). -/
def generateMarkdownTable (rnd : Nat) (stats : List ReviewerStat)
    (totalPRs : Nat) (requiredOnly : Bool) : String :=
  String.intercalate "\n" (generateMarkdownLines rnd stats totalPRs requiredOnly)

/-- One row of the badge table of spec §4.3: a title and a condition over
(avgRequired, reviewer).  This is the specification-side rendering of the
rules; the code-side chain is badgeForReviewer. -/
structure SpecBadgeRule where
  title : String
  cond : ℚ → ReviewerStat → Bool

/-- Modelled from the spec, §4.3 step 3: the eight badge rules in table
order with exactly the listed conditions. -/
def specBadgeRules : List SpecBadgeRule :=
  [⟨"Super Reviewer", fun avg r => decide (isHighVolume avg r ∧ completionRate r ≥ 0.8)⟩,
   ⟨"Needs Backup", fun avg r => decide (isHighVolume avg r ∧ unreviewedRate r ≥ 0.5)⟩,
   ⟨"Needs Coffee", fun avg r => decide ((isLowVolume avg r ∨ isMedVolume avg r) ∧
      unreviewedRate r ≥ 0.7 ∧ r.pendingCount ≥ 2)⟩,
   ⟨"Benchwarmer", fun avg r => decide (isLowVolume avg r ∧ r.requiredCount ≤ 1)⟩,
   ⟨"Flawless", fun _avg r => decide (r.requiredCount ≥ 2 ∧ completionRate r = 1)⟩,
   ⟨"Gatekeeper", fun _avg r => decide (r.rejectedCount ≥ 1)⟩,
   ⟨"Waiting Room", fun _avg r => decide (r.waitingForAuthorCount ≥ 2)⟩,
   ⟨"Speed Demon", fun avg r => decide (isMedVolume avg r ∧ completionRate r ≥ 0.7)⟩]

/-- Modelled from the spec, §4.3 step 1: arithmetic mean of requiredCount
over all stats in the input, 0 if the input is empty. -/
def specAvgRequired (stats : List ReviewerStat) : ℚ :=
  if stats.length = 0 then 0
  else ((stats.map (fun r => (r.requiredCount : ℚ))).sum) / (stats.length : ℚ)

/-- Modelled from the spec, §4.3 steps 1-3: mean requiredCount over the
input (0 if empty); reviewers with requiredCount == 0 excluded; per
reviewer the FIRST matching rule of the table, and only it, is recorded. -/
def specAssignBadges (stats : List ReviewerStat) : List (String × ReviewerStat) :=
  (stats.filter (fun r => decide (r.requiredCount ≠ 0))).filterMap
    (fun r =>
      (specBadgeRules.find? (fun rule => rule.cond (specAvgRequired stats) r)).map
        (fun rule => (rule.title, r)))

/-- Per-reviewer aggregate of the operational PowerShell script
(reviewer-stats-discord, lines 168-175): Blocked merges
Waiting-for-Author and Rejected. -/
structure ScriptStat where
  Name : String
  Email : String
  Required : Nat
  Approved : Nat
  Blocked : Nat
  Unreviewed : Nat
deriving DecidableEq, Repr, Inhabited

/-- ($reviewer.displayName -split ' ')[0] (script line 166): the text
before the first space of the display name. -/
def scriptFirstName (rev : ReviewerAssignment) : String :=
  String.mk ((rev.displayName.getD "").data.takeWhile (fun c => c ≠ ' '))

/-- The fresh hashtable entry of script lines 168-175. -/
def scriptFresh (rev : ReviewerAssignment) (email : String) : ScriptStat :=
  { Name := scriptFirstName rev, Email := email
    Required := 0, Approved := 0, Blocked := 0, Unreviewed := 0 }

/-- The per-assignment mutation of script lines 178-191: Required++, then
vote >= 5 counts Approved (10 or 5), vote == -5 or <= -10 counts Blocked,
anything else Unreviewed. -/
def scriptExtend (rev : ReviewerAssignment) (s : ScriptStat) : ScriptStat :=
  let s1 := { s with Required := s.Required + 1 }
  let vote := rev.vote.getD 0
  if 5 ≤ vote then { s1 with Approved := s1.Approved + 1 }
  else if vote = -5 ∨ vote ≤ -10 then { s1 with Blocked := s1.Blocked + 1 }
  else { s1 with Unreviewed := s1.Unreviewed + 1 }

/-- Loop state of the script's aggregation: the $email script variable
(script scope, shared across both nested loops and never reset between
iterations) together with the hashtable being built.  The unset $null and
the empty string are merged into "": the script only ever tests $email
with -not, uses it as a key, and stores it, and "" and $null behave
identically in all three uses. -/
structure ScriptLoopState where
  email : String
  stats : List (String × ScriptStat)

/-- Script line 160, $email = $reviewer.uniqueName.ToLower(), which has NO
null-guard (unlike the tool's uniqueName?.toLowerCase() || ""): when
uniqueName is present the assignment lower-cases it; when it is missing
the method call on $null raises a statement-terminating error, the
assignment does not execute, and under the default ErrorActionPreference
execution continues at the next statement with $email still holding its
STALE value from the previous iteration. -/
def scriptEmailOf (st : ScriptLoopState) (rev : ReviewerAssignment) : String :=
  match rev.uniqueName with
  | some u => toLowerStr u
  | none => st.email

/-- Inner reviewer loop of script lines 156-192: skip non-required; run the
$email assignment (stale on a missing uniqueName, see scriptEmailOf); skip
falsy $email; otherwise create-if-absent and mutate the keyed entry — on
the stale-email path the current reviewer's vote is mis-attributed to the
previously processed email. -/
def scriptProcessReviewer (st : ScriptLoopState)
    (rev : ReviewerAssignment) : ScriptLoopState :=
  if rev.isRequired.getD false = false then st
  else if scriptEmailOf st rev = "" then { st with email := scriptEmailOf st rev }
  else
    { email := scriptEmailOf st rev
      stats := setKey st.stats (scriptEmailOf st rev)
        (scriptExtend rev ((lookupKey st.stats (scriptEmailOf st rev)).getD
          (scriptFresh rev (scriptEmailOf st rev)))) }

/-- Outer PR loop of script lines 155-193. -/
def scriptProcessPR (st : ScriptLoopState)
    (pr : PullRequestSummary) : ScriptLoopState :=
  (pr.reviewers.getD []).foldl scriptProcessReviewer st

/-- The script aggregation: active non-draft PRs (script line 149), then
the nested reviewer loop, starting with $email unset and an empty
hashtable.  The PowerShell hashtable has no guaranteed iteration order;
the association list here fixes discovery order, which is irrelevant to
the per-key comparisons proved below. -/
def scriptStatsMapOf (prs : List PullRequestSummary) : List (String × ScriptStat) :=
  ((nonDraftPRs prs).foldl scriptProcessPR { email := "", stats := [] }).stats

/-- Average required count of script lines 204-207 (guarded by the early
exit on an empty stats set; 0 for the empty list here). -/
def scriptAvgRequired (stats : List ScriptStat) : ℚ :=
  if stats.length = 0 then 0
  else ((stats.map (fun r => (r.Required : ℚ))).sum) / (stats.length : ℚ)

/-- One badge definition of the script's $badges array (lines 77-86):
title plus condition over ($r, $avg). -/
structure ScriptBadgeRule where
  title : String
  cond : ScriptStat → ℚ → Bool

/-- The script's badge table (script lines 78-85), conditions verbatim. -/
def scriptBadgeRules : List ScriptBadgeRule :=
  [⟨"Super Reviewer", fun r avg => decide ((r.Required : ℚ) ≥ avg * 1.5 ∧ 0 < r.Required ∧
      (r.Approved : ℚ) / (r.Required : ℚ) ≥ 0.8)⟩,
   ⟨"Needs Backup", fun r avg => decide ((r.Required : ℚ) ≥ avg * 1.5 ∧ 0 < r.Required ∧
      (r.Unreviewed : ℚ) / (r.Required : ℚ) ≥ 0.5)⟩,
   ⟨"Needs Coffee", fun r avg => decide ((r.Required : ℚ) ≤ avg * 0.5 ∧ 0 < r.Required ∧
      2 ≤ r.Unreviewed ∧ (r.Unreviewed : ℚ) / (r.Required : ℚ) ≥ 0.7)⟩,
   ⟨"Benchwarmer", fun r _avg => decide (r.Required ≤ 1 ∧ 0 < r.Required)⟩,
   ⟨"Flawless", fun r _avg => decide (2 ≤ r.Required ∧ r.Approved = r.Required)⟩,
   ⟨"Gatekeeper", fun r _avg => decide (1 ≤ r.Blocked)⟩,
   ⟨"Waiting Room", fun r _avg => decide (2 ≤ r.Blocked)⟩,
   ⟨"Speed Demon", fun r avg => decide ((r.Required : ℚ) > avg * 0.5 ∧
      (r.Required : ℚ) < avg * 1.5 ∧ 0 < r.Required ∧
      (r.Approved : ℚ) / (r.Required : ℚ) ≥ 0.7)⟩]

/-- The script's applicable-badge collection (lines 210-220): for EVERY
stat, EVERY badge whose condition holds is collected (no first-match
cut-off, unlike the tool's else-if chain). -/
def scriptApplicableBadges (stats : List ScriptStat) : List (String × ScriptStat) :=
  (stats.map (fun stat =>
    (scriptBadgeRules.filter (fun b => b.cond stat (scriptAvgRequired stats))).map
      (fun b => (b.title, stat)))).flatten

/-- Input-builder helpers for the concrete examples below. -/
def mkRev (email name : String) (req : Bool) (vote : Int) : ReviewerAssignment :=
  { uniqueName := some email, displayName := some name
    isRequired := some req, vote := some vote }

def mkPR (id : Nat) (draft : Bool) (revs : List ReviewerAssignment) : PullRequestSummary :=
  { pullRequestId := some id, title := some ("PR " ++ toString id)
    isDraft := some draft, reviewers := some revs }

/-- A ReviewerStat literal builder for concrete badge/renderer examples
(totalCount = requiredCount, optionalCount = 0, as the aggregation
produces). -/
def mkStat (name email : String) (req app pend wait rej : Nat) : ReviewerStat :=
  { displayName := name, email := email
    requiredCount := req, optionalCount := 0, totalCount := req
    approvedCount := app, pendingCount := pend
    waitingForAuthorCount := wait, rejectedCount := rej, prs := [] }

def exC1 : List PullRequestSummary :=
  [mkPR 1 false [mkRev "a@b.com" "Alice Example" true 10,
                 mkRev "b@b.com" "Bob Example" true (-5)],
   mkPR 2 false [mkRev "a@b.com" "Alice Example" true 0]]

def sC1 : ReviewerStat := ((statsMapOf exC1).map (fun e => e.2)).headD default

def exC10 : List PullRequestSummary :=
  [mkPR 7 false [mkRev "a@b.com" "Alice Example" true 10]]

def sC10 : ReviewerStat := ((statsMapOf exC10).map (fun e => e.2)).headD default

def exC6 : List PullRequestSummary :=
  [mkPR 1 false [mkRev "opt@b.com" "Opt Reviewer" false 10]]

def exC6w : List PullRequestSummary :=
  [mkPR 3 false [mkRev "a@b.com" "Alice Example" true 0,
                 mkRev "o@b.com" "Opt Reviewer" false 10]]

def sC6 : ReviewerStat := ((statsMapOf exC6w).map (fun e => e.2)).headD default

/-- Dropping the optional reviewers from a PR summary. -/
def onlyRequired (pr : PullRequestSummary) : PullRequestSummary :=
  { pr with reviewers := some ((pr.reviewers.getD []).filter
      (fun rev => rev.isRequired.getD false)) }

def exC8case : List PullRequestSummary :=
  [mkPR 1 false [mkRev "A@B.com" "Alice Example" true 0],
   mkPR 2 false [mkRev "a@b.com" "Alice Example" true 10]]

def exC8ws : List PullRequestSummary :=
  [mkPR 1 false [mkRev "a@b.com" "Alice Example" true 0],
   mkPR 2 false [mkRev " a@b.com" "Alice Example" true 0]]

def sC9 : ReviewerStat := mkStat "Zed Zero" "z@b.com" 0 0 0 0 0

def rC3 : ReviewerStat := mkStat "Alice Example" "a@b.com" 4 4 0 0 0

def c3stats : List ReviewerStat :=
  [rC3, mkStat "Bob Example" "b@b.com" 4 1 2 1 0,
   mkStat "Cam Example" "c@b.com" 4 2 1 1 0]

def exC4 : List PullRequestSummary :=
  [mkPR 1 false [mkRev "a@b.com" "Alice Example" true 5]]

def exC4w : List PullRequestSummary :=
  [mkPR 1 false [mkRev "a@b.com" "Alice Example" true 10,
                 mkRev "b@b.com" "Bob Example" true (-5)],
   mkPR 2 false [mkRev "a@b.com" "Alice Example" true (-10)]]

/-- One non-draft PR with a required reviewer followed by a required
reviewer whose uniqueName is missing: the script's un-guarded ToLower()
errors and the second assignment is mis-attributed to the stale $email. -/
def exC4null : List PullRequestSummary :=
  [mkPR 9 false [mkRev "a@b.com" "Alice Example" true 0,
                 { uniqueName := none, displayName := some "Ghost Reviewer"
                   isRequired := some true, vote := some 0 }]]

/-- The single ReviewerStat the tool derives from exC4. -/
def tC4 : ReviewerStat :=
  { displayName := "Alice Example", email := "a@b.com"
    requiredCount := 1, optionalCount := 0, totalCount := 1
    approvedCount := 0, pendingCount := 1
    waitingForAuthorCount := 0, rejectedCount := 0
    prs := [{ id := 1, title := "PR 1", isRequired := true
              vote := "Approved with suggestions" }] }

/-- The single ScriptStat the script derives from exC4. -/
def sSC4 : ScriptStat :=
  { Name := "Alice", Email := "a@b.com"
    Required := 1, Approved := 1, Blocked := 0, Unreviewed := 0 }

/-- C2: the vote classifier is total and ordered — every integer falls in
exactly one bucket: Approved exactly when vote ≥ 10, WaitingForAuthor
exactly when vote = -5, Rejected exactly when vote ≤ -10, and Pending
exactly for the remaining values (including 0 and unmapped values such as
7); no input is rejected. -/
theorem classifyVote_characterization (v : Int) :
    (classifyVote v = VoteBucket.approved ↔ 10 ≤ v) ∧
    (classifyVote v = VoteBucket.waitingForAuthor ↔ v = -5) ∧
    (classifyVote v = VoteBucket.rejected ↔ v ≤ -10) ∧
    (classifyVote v = VoteBucket.pending ↔ (v < 10 ∧ v ≠ -5 ∧ -10 < v)) := by
  unfold classifyVote
  split_ifs <;> simp_all <;> omega

theorem statOk_fresh (rev : ReviewerAssignment) : StatOk (freshStat rev) := by
  simp [StatOk, freshStat]

theorem statOk_extend (pr : PullRequestSummary) (rev : ReviewerAssignment)
    (s : ReviewerStat) (h : StatOk s) :
    StatOk (extendStat pr rev s) ∧ 1 ≤ (extendStat pr rev s).requiredCount := by
  obtain ⟨h1, h2, h3⟩ := h
  unfold extendStat
  cases hv : classifyVote (rev.vote.getD 0) <;>
    simp [StatOk, hv] <;> omega

theorem mem_setKey {σ : Type} (k : String) (v : σ) :
    ∀ (m : List (String × σ)) (e : String × σ), e ∈ setKey m k v → e ∈ m ∨ e = (k, v)
  | [], e, he => by
    simp [setKey] at he
    exact Or.inr he
  | (k', w) :: rest, e, he => by
    by_cases hk : k' = k
    · simp [setKey, hk] at he
      rcases he with he | he
      · exact Or.inr (by simp [he])
      · exact Or.inl (List.mem_cons_of_mem _ he)
    · simp [setKey, hk] at he
      rcases he with he | he
      · exact Or.inl (by simp [he])
      · rcases mem_setKey k v rest e he with h | h
        · exact Or.inl (List.mem_cons_of_mem _ h)
        · exact Or.inr h

theorem lookupKey_mem {σ : Type} :
    ∀ (m : List (String × σ)) (k : String) (v : σ),
      lookupKey m k = some v → (k, v) ∈ m
  | [], k, v, h => by simp [lookupKey] at h
  | (k', w) :: rest, k, v, h => by
    by_cases hk : k' = k
    · simp [lookupKey, hk] at h
      exact List.mem_cons.mpr (Or.inl (by simp [hk, h]))
    · simp [lookupKey, hk] at h
      exact List.mem_cons_of_mem _ (lookupKey_mem rest k v h)

/-- A fold over any step function that preserves a per-entry predicate
preserves it globally. -/
theorem foldl_entries_preserve {β : Type} (f : StatsMap → β → StatsMap)
    (P : ReviewerStat → Prop)
    (hf : ∀ m b, (∀ e ∈ m, P e.2) → ∀ e ∈ f m b, P e.2) :
    ∀ (l : List β) (m : StatsMap), (∀ e ∈ m, P e.2) → ∀ e ∈ l.foldl f m, P e.2
  | [], m, hm => hm
  | b :: l, m, hm => by
    simpa using foldl_entries_preserve f P hf l (f m b) (hf m b hm)

theorem processReviewer_entries_ok (pr : PullRequestSummary) (m : StatsMap)
    (rev : ReviewerAssignment)
    (hm : ∀ e ∈ m, StatOk e.2 ∧ 1 ≤ e.2.requiredCount) :
    ∀ e ∈ processReviewer pr m rev, StatOk e.2 ∧ 1 ≤ e.2.requiredCount := by
  unfold processReviewer
  split_ifs with h1 h2
  · exact hm
  · exact hm
  · intro e he
    rcases mem_setKey _ _ m e he with h | h
    · exact hm e h
    · subst h
      have hbase : StatOk ((lookupKey m (revKey rev)).getD (freshStat rev)) := by
        cases hl : lookupKey m (revKey rev) with
        | none => simpa using statOk_fresh rev
        | some s =>
          simpa using (hm _ (lookupKey_mem m _ s hl)).1
      exact statOk_extend pr rev _ hbase

theorem statsMap_entries_ok (prs : List PullRequestSummary) :
    ∀ e ∈ statsMapOf prs, StatOk e.2 ∧ 1 ≤ e.2.requiredCount := by
  have hf : ∀ m pr, (∀ e ∈ m, StatOk e.2 ∧ 1 ≤ e.2.requiredCount) →
      ∀ e ∈ processPR m pr, StatOk e.2 ∧ 1 ≤ e.2.requiredCount := by
    intro m pr hm
    exact foldl_entries_preserve (processReviewer pr)
      (fun s => StatOk s ∧ 1 ≤ s.requiredCount)
      (fun m' rev hm' => processReviewer_entries_ok pr m' rev hm')
      (pr.reviewers.getD []) m hm
  exact foldl_entries_preserve processPR (fun s => StatOk s ∧ 1 ≤ s.requiredCount)
    hf (nonDraftPRs prs) [] (by simp)

/-- C1: every ReviewerStat produced by the aggregation has
approvedCount + waitingForAuthorCount + rejectedCount + pendingCount =
requiredCount: the four outcome buckets are mutually exclusive per
assignment and partition the required assignments. -/
theorem bucket_partition_eq_requiredCount (prs : List PullRequestSummary)
    (s : ReviewerStat) (hs : s ∈ reviewerStatsOf prs) :
    s.approvedCount + s.waitingForAuthorCount + s.rejectedCount + s.pendingCount
      = s.requiredCount := by
  unfold reviewerStatsOf sortStats at hs
  rw [List.mem_insertionSort] at hs
  obtain ⟨e, he, rfl⟩ := List.mem_map.mp hs
  exact (statsMap_entries_ok prs e he).1.1

/-- Witness for C1 at a concrete input. -/
theorem bucket_partition_eq_requiredCount_witness :
    sC1 ∈ reviewerStatsOf exC1 ∧
    sC1.approvedCount + sC1.waitingForAuthorCount + sC1.rejectedCount + sC1.pendingCount
      = sC1.requiredCount :=
  ⟨by decide, bucket_partition_eq_requiredCount exC1 sC1 (by decide)⟩

/-- C10: every aggregated ReviewerStat has optionalCount = 0,
totalCount = requiredCount and requiredCount ≥ 1; hence the requiredOnly
render-time filter removes no entries, and the comparator's
descending-totalCount tie-break evaluates to 0 on every pair tied on
requiredCount (so it never reorders such a pair). -/
theorem aggregation_stats_degenerate (prs : List PullRequestSummary) :
    (∀ s ∈ (statsMapOf prs).map (fun e => e.2),
        s.optionalCount = 0 ∧ s.totalCount = s.requiredCount ∧ 1 ≤ s.requiredCount) ∧
    displayFilter (reviewerStatsOf prs) true = reviewerStatsOf prs ∧
    (∀ a ∈ reviewerStatsOf prs, ∀ b ∈ reviewerStatsOf prs,
        a.requiredCount = b.requiredCount → cmpStats a b = 0) := by
  have hmem : ∀ s ∈ (statsMapOf prs).map (fun e => e.2),
      StatOk s ∧ 1 ≤ s.requiredCount := by
    intro s hs
    obtain ⟨e, he, rfl⟩ := List.mem_map.mp hs
    exact statsMap_entries_ok prs e he
  have hmem2 : ∀ s ∈ reviewerStatsOf prs, StatOk s ∧ 1 ≤ s.requiredCount := by
    intro s hs
    apply hmem
    unfold reviewerStatsOf sortStats at hs
    exact (List.mem_insertionSort _).mp hs
  refine ⟨?_, ?_, ?_⟩
  · intro s hs
    obtain ⟨⟨_, h2, h3⟩, h4⟩ := hmem s hs
    exact ⟨h2, h3, h4⟩
  · unfold displayFilter
    rw [if_pos rfl, List.filter_eq_self]
    intro a ha
    have := (hmem2 a ha).2
    simpa using this
  · intro a ha b hb hab
    have h3a := (hmem2 a ha).1.2.2
    have h3b := (hmem2 b hb).1.2.2
    unfold cmpStats
    split_ifs with h
    · omega
    · omega

/-- Witness for C10 at a concrete input. -/
theorem aggregation_stats_degenerate_witness :
    (sC10 ∈ (statsMapOf exC10).map (fun e => e.2)) ∧
    (sC10.optionalCount = 0 ∧ sC10.totalCount = sC10.requiredCount ∧ 1 ≤ sC10.requiredCount) ∧
    displayFilter (reviewerStatsOf exC10) true = reviewerStatsOf exC10 ∧
    (sC10 ∈ reviewerStatsOf exC10 ∧ cmpStats sC10 sC10 = 0) :=
  ⟨by decide,
   (aggregation_stats_degenerate exC10).1 sC10 (by decide),
   (aggregation_stats_degenerate exC10).2.1,
   by decide,
   (aggregation_stats_degenerate exC10).2.2 sC10 (by decide) sC10 (by decide) rfl⟩

theorem extendStat_reviewers_irrel (pr : PullRequestSummary)
    (rev : ReviewerAssignment) (s : ReviewerStat) (x : Option (List ReviewerAssignment)) :
    extendStat { pr with reviewers := x } rev s = extendStat pr rev s := rfl

theorem processReviewer_reviewers_irrel (pr : PullRequestSummary)
    (m : StatsMap) (rev : ReviewerAssignment) (x : Option (List ReviewerAssignment)) :
    processReviewer { pr with reviewers := x } m rev = processReviewer pr m rev := rfl

theorem foldl_processReviewer_filter_required (pr : PullRequestSummary) :
    ∀ (revs : List ReviewerAssignment) (m : StatsMap),
      (revs.filter (fun rev => rev.isRequired.getD false)).foldl (processReviewer pr) m
        = revs.foldl (processReviewer pr) m
  | [], m => rfl
  | rev :: revs, m => by
    by_cases h : rev.isRequired.getD false
    · simp only [List.filter_cons, h, if_true, List.foldl_cons]
      exact foldl_processReviewer_filter_required pr revs (processReviewer pr m rev)
    · have hskip : processReviewer pr m rev = m := by
        unfold processReviewer
        rw [if_pos (by simpa using h)]
      simp only [List.filter_cons, h, List.foldl_cons, hskip]
      exact foldl_processReviewer_filter_required pr revs m

/-- C6 amended: non-required (optional) assignments are skipped by the
aggregation unconditionally — the requiredOnly option plays no role there —
so deleting every optional assignment from the input leaves the aggregate
unchanged, and optionalCount is 0 in every produced ReviewerStat. -/
theorem optional_assignments_always_skipped (prs : List PullRequestSummary) :
    statsMapOf prs = statsMapOf (prs.map onlyRequired) ∧
    ∀ s ∈ (statsMapOf prs).map (fun e => e.2), s.optionalCount = 0 := by
  constructor
  · unfold statsMapOf nonDraftPRs
    rw [List.filter_map]
    have hpred : ((fun pr => !(pr.isDraft.getD false)) ∘ onlyRequired)
        = (fun pr => !(pr.isDraft.getD false)) := by
      funext pr
      rfl
    rw [hpred, List.foldl_map]
    have hstep : ∀ (m : StatsMap) (pr : PullRequestSummary),
        processPR m (onlyRequired pr) = processPR m pr := by
      intro m pr
      unfold processPR
      have hpr : processReviewer (onlyRequired pr) = processReviewer pr := by
        funext m'' rev
        exact processReviewer_reviewers_irrel pr m'' rev _
      have hrevs : (onlyRequired pr).reviewers.getD []
          = (pr.reviewers.getD []).filter (fun rev => rev.isRequired.getD false) := rfl
      rw [hrevs, hpr]
      exact foldl_processReviewer_filter_required pr (pr.reviewers.getD []) m
    simp only [hstep]
  · intro s hs
    obtain ⟨e, he, rfl⟩ := List.mem_map.mp hs
    exact (statsMap_entries_ok prs e he).1.2.1

/-- Counterexample for C6 as stated: a non-draft PR whose only reviewer is
an optional assignment with a non-empty email and a vote produces NO
ReviewerStat at all (the claim would give it optionalCount = 1). -/
theorem optional_assignment_ignored_cex :
    statsMapOf exC6 = [] ∧ reviewerStatsOf exC6 = [] := by decide

/-- Witness for the amended C6 at a concrete input. -/
theorem optional_assignments_always_skipped_witness :
    statsMapOf exC6w = statsMapOf (exC6w.map onlyRequired) ∧
    (sC6 ∈ (statsMapOf exC6w).map (fun e => e.2)) ∧ sC6.optionalCount = 0 :=
  ⟨(optional_assignments_always_skipped exC6w).1,
   by decide,
   (optional_assignments_always_skipped exC6w).2 sC6 (by decide)⟩

/-- Fold preservation for a predicate over whole entries (key and value). -/
theorem foldl_pairs_preserve {β : Type} (f : StatsMap → β → StatsMap)
    (P : String × ReviewerStat → Prop)
    (hf : ∀ m b, (∀ e ∈ m, P e) → ∀ e ∈ f m b, P e) :
    ∀ (l : List β) (m : StatsMap), (∀ e ∈ m, P e) → ∀ e ∈ l.foldl f m, P e
  | [], m, hm => hm
  | b :: l, m, hm => by
    simpa using foldl_pairs_preserve f P hf l (f m b) (hf m b hm)

theorem statsMap_keys_nonempty (prs : List PullRequestSummary) :
    ∀ e ∈ statsMapOf prs, e.1 ≠ "" := by
  have hrev : ∀ pr m rev, (∀ e ∈ m, e.1 ≠ "") →
      ∀ e ∈ processReviewer pr m rev, e.1 ≠ "" := by
    intro pr m rev hm
    unfold processReviewer
    split_ifs with h1 h2
    · exact hm
    · exact hm
    · intro e he
      rcases mem_setKey _ _ m e he with h | h
      · exact hm e h
      · rw [h]
        exact h2
  have hpr : ∀ m pr, (∀ e ∈ m, e.1 ≠ "") → ∀ e ∈ processPR m pr, e.1 ≠ "" := by
    intro m pr hm
    exact foldl_pairs_preserve (processReviewer pr) (fun e => e.1 ≠ "")
      (hrev pr) (pr.reviewers.getD []) m hm
  exact foldl_pairs_preserve processPR (fun e => e.1 ≠ "")
    hpr (nonDraftPRs prs) [] (by simp)

theorem lookupKey_eq_none {σ : Type} :
    ∀ (m : List (String × σ)) (k : String), (∀ e ∈ m, e.1 ≠ k) → lookupKey m k = none
  | [], _, _ => rfl
  | (k', v) :: rest, k, h => by
    have hne : k' ≠ k := h (k', v) (List.mem_cons_self _ _)
    simp only [lookupKey, if_neg hne]
    exact lookupKey_eq_none rest k (fun e he => h e (List.mem_cons_of_mem _ he))

/-- C8 amended: email identity is normalized by lower-casing ONLY — there
is no trimming.  Assignments whose emails differ only in letter case are
attributed to the same ReviewerStat; assignments whose emails differ only
in surrounding whitespace are attributed to DISTINCT ReviewerStats; an
assignment whose lower-cased email is the empty string is skipped, so the
empty key never appears in the aggregate. -/
theorem email_lowercase_no_trim :
    (∀ prs : List PullRequestSummary, lookupKey (statsMapOf prs) "" = none) ∧
    ((statsMapOf exC8case).map (fun e => e.1) = ["a@b.com"] ∧
      (lookupKey (statsMapOf exC8case) "a@b.com").map (fun s => s.requiredCount)
        = some 2) ∧
    (statsMapOf exC8ws).map (fun e => e.1) = ["a@b.com", " a@b.com"] := by
  refine ⟨?_, by decide, by decide⟩
  intro prs
  exact lookupKey_eq_none _ "" (statsMap_keys_nonempty prs)

/-- Counterexample for C8 as stated: two required assignments on non-draft
PRs whose emails differ only in surrounding whitespace ("a@b.com" vs
" a@b.com") produce TWO ReviewerStats with different keys — the claimed
trimming does not happen, so they are not attributed to one ReviewerStat. -/
theorem email_whitespace_not_trimmed_cex :
    (statsMapOf exC8ws).length = 2 ∧
    (lookupKey (statsMapOf exC8ws) "a@b.com").map (fun s => s.requiredCount) = some 1 ∧
    (lookupKey (statsMapOf exC8ws) " a@b.com").map (fun s => s.requiredCount) = some 1 := by
  decide

theorem lookupKey_setKey_self {σ : Type} :
    ∀ (m : List (String × σ)) (k : String) (v : σ),
      lookupKey (setKey m k v) k = some v
  | [], k, v => by simp [setKey, lookupKey]
  | (k', w) :: rest, k, v => by
    by_cases hk : k' = k
    · simp [setKey, hk, lookupKey]
    · simp only [setKey, if_neg hk, lookupKey, if_neg hk]
      exact lookupKey_setKey_self rest k v

theorem lookupKey_setKey_ne {σ : Type} :
    ∀ (m : List (String × σ)) (k : String) (v : σ) (k' : String), k ≠ k' →
      lookupKey (setKey m k v) k' = lookupKey m k'
  | [], k, v, k', h => by simp [setKey, lookupKey, h]
  | (k0, w) :: rest, k, v, k', h => by
    by_cases hk : k0 = k
    · simp only [setKey, if_pos hk, lookupKey, if_neg h, hk]
    · simp only [setKey, if_neg hk, lookupKey]
      by_cases hk' : k0 = k'
      · simp [hk']
      · simp only [if_neg hk']
        exact lookupKey_setKey_ne rest k v k' h

/-- The one-step effect of processReviewer on key existence. -/
theorem lookupKey_isSome_processReviewer (pr : PullRequestSummary)
    (m : StatsMap) (rev : ReviewerAssignment) (k : String) :
    (lookupKey (processReviewer pr m rev) k).isSome = true ↔
      (lookupKey m k).isSome = true ∨
        (rev.isRequired.getD false = true ∧ revKey rev = k ∧ revKey rev ≠ "") := by
  unfold processReviewer
  split_ifs with h1 h2
  · simp [h1]
  · simp [h2]
  · by_cases hk : revKey rev = k
    · rw [hk, lookupKey_setKey_self]
      have hreq : rev.isRequired.getD false = true := by
        cases h : rev.isRequired.getD false
        · exact absurd h h1
        · rfl
      have hkne : k ≠ "" := by rw [← hk]; exact h2
      simp [hreq, hk, hkne]
    · rw [lookupKey_setKey_ne m (revKey rev) _ k hk]
      simp [hk]

/-- Key existence across the reviewer loop of one PR. -/
theorem lookupKey_isSome_foldRevs (pr : PullRequestSummary) (k : String) :
    ∀ (revs : List ReviewerAssignment) (m : StatsMap),
      (lookupKey (revs.foldl (processReviewer pr) m) k).isSome = true ↔
        (lookupKey m k).isSome = true ∨
          ∃ rev ∈ revs, rev.isRequired.getD false = true ∧ revKey rev = k ∧ revKey rev ≠ ""
  | [], m => by simp
  | rev :: revs, m => by
    rw [List.foldl_cons, lookupKey_isSome_foldRevs pr k revs (processReviewer pr m rev),
      lookupKey_isSome_processReviewer]
    simp only [List.exists_mem_cons_iff]
    tauto

/-- Key existence across the whole PR fold. -/
theorem lookupKey_isSome_foldPRs (k : String) :
    ∀ (prsL : List PullRequestSummary) (m : StatsMap),
      (lookupKey (prsL.foldl processPR m) k).isSome = true ↔
        (lookupKey m k).isSome = true ∨
          ∃ pr ∈ prsL, ∃ rev ∈ pr.reviewers.getD [],
            rev.isRequired.getD false = true ∧ revKey rev = k ∧ revKey rev ≠ ""
  | [], m => by simp
  | pr :: prsL, m => by
    rw [List.foldl_cons, lookupKey_isSome_foldPRs k prsL (processPR m pr)]
    unfold processPR
    rw [lookupKey_isSome_foldRevs pr k (pr.reviewers.getD []) m]
    simp only [List.exists_mem_cons_iff]
    exact or_assoc

/-- C5: a ReviewerStat exists in the aggregate for an email if and only if
the email is non-empty and at least one required-reviewer assignment whose
normalized (lower-cased) email equals it occurs on a non-draft PR of the
input; reviewers appearing only on draft PRs are absent. -/
theorem reviewerStat_exists_iff_required_assignment
    (prs : List PullRequestSummary) (email : String) :
    (∃ s, lookupKey (statsMapOf prs) email = some s) ↔
      (email ≠ "" ∧ ∃ pr ∈ prs, pr.isDraft.getD false = false ∧
        ∃ rev ∈ pr.reviewers.getD [],
          rev.isRequired.getD false = true ∧ revKey rev = email) := by
  rw [← Option.isSome_iff_exists]
  unfold statsMapOf
  rw [lookupKey_isSome_foldPRs email (nonDraftPRs prs) []]
  simp only [lookupKey, Option.isSome_none, Bool.false_eq_true, false_or]
  constructor
  · rintro ⟨pr, hpr, rev, hrev, hreq, hkey, hne⟩
    have hmem := List.mem_filter.mp hpr
    refine ⟨by rw [← hkey]; exact hne, pr, hmem.1, by simpa using hmem.2, rev, hrev, hreq, hkey⟩
  · rintro ⟨hne, pr, hpr, hdraft, rev, hrev, hreq, hkey⟩
    refine ⟨pr, List.mem_filter.mpr ⟨hpr, by simp [hdraft]⟩, rev, hrev, hreq, hkey, ?_⟩
    rw [hkey]
    exact hne

theorem intercalate_pair (sep a b : String) :
    String.intercalate sep [a, b] = a ++ sep ++ b := rfl

/-- C9: when the display-time filter leaves no reviewers, the renderer
emits exactly the heading line followed by the single line
"No reviewers found." — no table header row, no dash separator row, no
data rows — and returns normally (a valid output, not an error). -/
theorem empty_filter_renders_no_reviewers (rnd : Nat)
    (stats : List ReviewerStat) (totalPRs : Nat) (requiredOnly : Bool)
    (h : displayFilter stats requiredOnly = []) :
    generateMarkdownLines rnd stats totalPRs requiredOnly =
      ["Reviewer Statistics (" ++ toString totalPRs ++ " Active PRs)\n",
       "No reviewers found."] ∧
    generateMarkdownTable rnd stats totalPRs requiredOnly =
      "Reviewer Statistics (" ++ toString totalPRs ++ " Active PRs)\n" ++ "\n" ++
        "No reviewers found." := by
  have h0 : (displayFilter stats requiredOnly).length = 0 := by rw [h]; rfl
  have h1 : generateMarkdownLines rnd stats totalPRs requiredOnly =
      ["Reviewer Statistics (" ++ toString totalPRs ++ " Active PRs)\n",
       "No reviewers found."] := by
    unfold generateMarkdownLines
    rw [if_pos h0]
  refine ⟨h1, ?_⟩
  unfold generateMarkdownTable
  rw [h1, intercalate_pair]

/-- Witness for C9 at a concrete input: one reviewer with requiredCount 0
is filtered out by the required-only view. -/
theorem empty_filter_renders_no_reviewers_witness :
    displayFilter [sC9] true = [] ∧
    generateMarkdownLines 0 [sC9] 3 true =
      ["Reviewer Statistics (" ++ toString (3 : Nat) ++ " Active PRs)\n",
       "No reviewers found."] :=
  ⟨by decide, (empty_filter_renders_no_reviewers 0 [sC9] 3 true (by decide)).1⟩

theorem statLE_iff (a b : ReviewerStat) :
    statLE a b ↔ (b.requiredCount < a.requiredCount ∨
      (b.requiredCount = a.requiredCount ∧ b.totalCount ≤ a.totalCount)) := by
  unfold statLE cmpStats
  split_ifs with h
  · omega
  · omega

/-- Key-tied elements keep their relative order through sortStats: the
sorted list restricted to any fixed (requiredCount, totalCount) key equals
the input restricted to that key. -/
theorem sortStats_filter_key (l : List ReviewerStat) (p : ReviewerStat → Bool)
    (hp : ∀ a b, p a = true → p b = true → statLE a b) :
    (sortStats l).filter p = l.filter p := by
  have hpair : List.Pairwise statLE (l.filter p) :=
    List.pairwise_of_forall_mem_list
      (fun a ha b hb => hp a b (List.of_mem_filter ha) (List.of_mem_filter hb))
  have hsub : (l.filter p).Sublist (sortStats l) :=
    List.sublist_insertionSort hpair (List.filter_sublist l)
  have hsub2 : ((l.filter p).filter p).Sublist ((sortStats l).filter p) :=
    hsub.filter p
  rw [List.filter_filter] at hsub2
  have hsub3 : (l.filter p).Sublist ((sortStats l).filter p) := by
    simpa [Bool.and_self] using hsub2
  have hperm : ((sortStats l).filter p).Perm (l.filter p) :=
    (List.perm_insertionSort statLE l).filter p
  exact (hsub3.eq_of_length (hperm.symm.length_eq)).symm

/-- C7: the report order is the stable descending sort of the
discovery-ordered aggregate — a permutation of the aggregate, pairwise
non-ascending in (requiredCount, then totalCount), and reviewers tied on
both keys keep their aggregation-discovery order. -/
theorem report_order_sorted_stable (prs : List PullRequestSummary) :
    (reviewerStatsOf prs).Perm ((statsMapOf prs).map (fun e => e.2)) ∧
    List.Sorted (fun a b => b.requiredCount < a.requiredCount ∨
      (b.requiredCount = a.requiredCount ∧ b.totalCount ≤ a.totalCount))
      (reviewerStatsOf prs) ∧
    ∀ rc tc : Nat,
      (reviewerStatsOf prs).filter
          (fun s => decide (s.requiredCount = rc ∧ s.totalCount = tc)) =
        ((statsMapOf prs).map (fun e => e.2)).filter
          (fun s => decide (s.requiredCount = rc ∧ s.totalCount = tc)) := by
  refine ⟨List.perm_insertionSort statLE _, ?_, ?_⟩
  · have hs : List.Sorted statLE (reviewerStatsOf prs) :=
      List.sorted_insertionSort statLE _
    exact List.Pairwise.imp (fun h => (statLE_iff _ _).mp h) hs
  · intro rc tc
    apply sortStats_filter_key
    intro a b ha hb
    have ha' := of_decide_eq_true ha
    have hb' := of_decide_eq_true hb
    rw [statLE_iff]
    right
    omega

theorem foldl_add_rat (l : List ReviewerStat) :
    ∀ c : ℚ, l.foldl (fun sum r => sum + (r.requiredCount : ℚ)) c
      = c + ((l.map (fun r => (r.requiredCount : ℚ))).sum) := by
  induction l with
  | nil => intro c; simp
  | cons r l ih =>
    intro c
    rw [List.foldl_cons, ih, List.map_cons, List.sum_cons]
    ring

theorem avgRequiredOf_eq_spec (stats : List ReviewerStat) :
    avgRequiredOf stats = specAvgRequired stats := by
  unfold avgRequiredOf specAvgRequired
  rw [foldl_add_rat stats 0]
  simp

/-- The code's else-if chain on one reviewer computes exactly the first
matching rule of the spec's ordered table (requiredCount = 0 excluded). -/
theorem badgeChain_eq_specFind (avg : ℚ) (r : ReviewerStat) :
    (badgeForReviewer avg r).map (fun b => (b.title, b.reviewer)) =
      if r.requiredCount ≠ 0 then
        (specBadgeRules.find? (fun rule => rule.cond avg r)).map
          (fun rule => (rule.title, r))
      else none := by
  by_cases hreq : r.requiredCount = 0
  · simp [badgeForReviewer, hreq]
  · by_cases h1 : isHighVolume avg r ∧ completionRate r ≥ 0.8
    · simp [badgeForReviewer, hreq, specBadgeRules, List.find?, h1]
    · by_cases h2 : isHighVolume avg r ∧ unreviewedRate r ≥ 0.5
      · have hx : ¬ (0.8 ≤ completionRate r) := fun hc => h1 ⟨h2.1, hc⟩
        simp [badgeForReviewer, hreq, specBadgeRules, List.find?, h1, h2, hx]
      · by_cases h3 : (isLowVolume avg r ∨ isMedVolume avg r) ∧
            unreviewedRate r ≥ 0.7 ∧ r.pendingCount ≥ 2
        · simp [badgeForReviewer, hreq, specBadgeRules, List.find?, h1, h2, h3]
        · by_cases h4 : isLowVolume avg r ∧ r.requiredCount ≤ 1
          · have hx : ¬ (0.7 ≤ unreviewedRate r ∧ 2 ≤ r.pendingCount) :=
              fun hc => h3 ⟨Or.inl h4.1, hc⟩
            simp [badgeForReviewer, hreq, specBadgeRules, List.find?, h1, h2, h3, h4, hx]
          · by_cases h5 : r.requiredCount ≥ 2 ∧ completionRate r = 1
            · have hhigh : ¬ isHighVolume avg r :=
                fun hh => h1 ⟨hh, by rw [h5.2]; norm_num⟩
              simp [badgeForReviewer, hreq, specBadgeRules, List.find?,
                h1, h2, h3, h4, h5, hhigh]
            · by_cases h6 : r.rejectedCount ≥ 1
              · simp [badgeForReviewer, hreq, specBadgeRules, List.find?,
                  h1, h2, h3, h4, h5, h6]
              · by_cases h7 : r.waitingForAuthorCount ≥ 2
                · simp [badgeForReviewer, hreq, specBadgeRules, List.find?,
                    h1, h2, h3, h4, h5, h6, h7]
                · by_cases h8 : isMedVolume avg r ∧ completionRate r ≥ 0.7
                  · have hx : ¬ (0.7 ≤ unreviewedRate r ∧ 2 ≤ r.pendingCount) :=
                      fun hc => h3 ⟨Or.inr h8.1, hc⟩
                    simp [badgeForReviewer, hreq, specBadgeRules, List.find?,
                      h1, h2, h3, h4, h5, h6, h7, h8, hx]
                  · simp [badgeForReviewer, hreq, specBadgeRules, List.find?,
                      h1, h2, h3, h4, h5, h6, h7, h8]

/-- C3: assignBadges evaluates the eight rules of the spec table in its
strict order with exactly the listed conditions, records only the first
match per reviewer (at most one badge each), and skips reviewers with
requiredCount = 0 entirely.  In particular, in the concrete group c3stats
the reviewer rC3 satisfies both the Flawless (rule 5) and Speed Demon
(rule 8) conditions yet receives Flawless. -/
theorem assignBadges_follows_spec_rules :
    (∀ stats : List ReviewerStat,
      (assignBadges stats).map (fun b => (b.title, b.reviewer)) = specAssignBadges stats) ∧
    ((rC3.requiredCount ≥ 2 ∧ completionRate rC3 = 1) ∧
      (isMedVolume (avgRequiredOf c3stats) rC3 ∧ completionRate rC3 ≥ 0.7) ∧
      (assignBadges c3stats).map (fun b => b.title) = ["Flawless"]) := by
  constructor
  · intro stats
    unfold assignBadges specAssignBadges
    rw [List.filterMap_filter, List.map_filterMap]
    rw [avgRequiredOf_eq_spec]
    congr 1
    funext r
    have h := badgeChain_eq_specFind (specAvgRequired stats) r
    simp only [decide_eq_true_eq]
    exact h
  · refine ⟨?_, ?_, ?_⟩
    · constructor
      · norm_num [rC3, mkStat]
      · norm_num [rC3, mkStat, completionRate]
    · constructor
      · norm_num [rC3, c3stats, mkStat, isMedVolume, isHighVolume, isLowVolume,
          avgRequiredOf]
      · norm_num [rC3, mkStat, completionRate]
    · norm_num [c3stats, rC3, mkStat, assignBadges, badgeForReviewer, avgRequiredOf,
        isMedVolume, isHighVolume, isLowVolume, completionRate, unreviewedRate,
        List.filterMap]

/-- Pointwise option result of looking the same key up in two
Forall₂-related association lists. -/
theorem forall2_lookupKey {R : ReviewerStat → ScriptStat → Prop}
    {m : StatsMap} {m' : List (String × ScriptStat)}
    (h : List.Forall₂ (fun a b => a.1 = b.1 ∧ R a.2 b.2) m m') (k : String) :
    (lookupKey m k = none ∧ lookupKey m' k = none) ∨
      ∃ t s, lookupKey m k = some t ∧ lookupKey m' k = some s ∧ R t s := by
  induction h with
  | nil => exact Or.inl ⟨rfl, rfl⟩
  | @cons a b l₁ l₂ hab hrest ih =>
    obtain ⟨a1, a2⟩ := a
    obtain ⟨b1, b2⟩ := b
    obtain ⟨hk1, hR⟩ := hab
    simp only at hk1
    subst hk1
    by_cases hk : a1 = k
    · exact Or.inr ⟨a2, b2, by simp [lookupKey, hk], by simp [lookupKey, hk], hR⟩
    · simpa [lookupKey, hk] using ih

theorem forall2_setKey {R : ReviewerStat → ScriptStat → Prop}
    {m : StatsMap} {m' : List (String × ScriptStat)}
    (h : List.Forall₂ (fun a b => a.1 = b.1 ∧ R a.2 b.2) m m')
    (k : String) {v : ReviewerStat} {v' : ScriptStat} (hv : R v v') :
    List.Forall₂ (fun a b => a.1 = b.1 ∧ R a.2 b.2) (setKey m k v) (setKey m' k v') := by
  induction h with
  | nil => exact List.Forall₂.cons ⟨rfl, hv⟩ List.Forall₂.nil
  | @cons a b l₁ l₂ hab hrest ih =>
    obtain ⟨a1, a2⟩ := a
    obtain ⟨b1, b2⟩ := b
    obtain ⟨hk1, hR⟩ := hab
    simp only at hk1
    subst hk1
    by_cases hk : a1 = k
    · simp only [setKey, if_pos hk]
      exact List.Forall₂.cons ⟨rfl, hv⟩ hrest
    · simp only [setKey, if_neg hk]
      exact List.Forall₂.cons ⟨rfl, hR⟩ ih

/-- One tool step and one script step on the same assignment preserve any
per-reviewer relation that the two mutations preserve. -/
theorem sim_processReviewer (R : ReviewerStat → ScriptStat → Prop)
    (pr : PullRequestSummary) (rev : ReviewerAssignment)
    (hu : rev.isRequired.getD false = true → (rev.uniqueName).isSome = true)
    (hext : ∀ t s, R t s → R (extendStat pr rev t) (scriptExtend rev s))
    (hfresh : R (extendStat pr rev (freshStat rev))
      (scriptExtend rev (scriptFresh rev (revKey rev))))
    {m : StatsMap} {st : ScriptLoopState}
    (hm : List.Forall₂ (fun a b => a.1 = b.1 ∧ R a.2 b.2) m st.stats) :
    List.Forall₂ (fun a b => a.1 = b.1 ∧ R a.2 b.2)
      (processReviewer pr m rev) (scriptProcessReviewer st rev).stats := by
  by_cases h1 : rev.isRequired.getD false = false
  · unfold processReviewer scriptProcessReviewer
    rw [if_pos h1, if_pos h1]
    exact hm
  · have hreq : rev.isRequired.getD false = true := by
      cases h : rev.isRequired.getD false
      · exact absurd h h1
      · rfl
    obtain ⟨u, hu'⟩ := Option.isSome_iff_exists.mp (hu hreq)
    have hkey : scriptEmailOf st rev = revKey rev := by
      simp [scriptEmailOf, revKey, hu']
    unfold processReviewer scriptProcessReviewer
    rw [if_neg h1, if_neg h1, hkey]
    by_cases h2 : revKey rev = ""
    · rw [if_pos h2, if_pos h2]
      exact hm
    · rw [if_neg h2, if_neg h2]
      rcases forall2_lookupKey hm (revKey rev) with ⟨hn, hn'⟩ | ⟨t, s, ht, hs, hR⟩
      · rw [hn, hn']
        exact forall2_setKey hm (revKey rev) hfresh
      · rw [ht, hs]
        exact forall2_setKey hm (revKey rev) (hext t s hR)

theorem sim_foldRevs (R : ReviewerStat → ScriptStat → Prop)
    (pr : PullRequestSummary) :
    ∀ (revs : List ReviewerAssignment),
      (∀ rev ∈ revs,
        (rev.isRequired.getD false = true → (rev.uniqueName).isSome = true) ∧
        (∀ t s, R t s → R (extendStat pr rev t) (scriptExtend rev s)) ∧
        R (extendStat pr rev (freshStat rev))
          (scriptExtend rev (scriptFresh rev (revKey rev)))) →
      ∀ {m : StatsMap} {st : ScriptLoopState},
        List.Forall₂ (fun a b => a.1 = b.1 ∧ R a.2 b.2) m st.stats →
        List.Forall₂ (fun a b => a.1 = b.1 ∧ R a.2 b.2)
          (revs.foldl (processReviewer pr) m)
          ((revs.foldl scriptProcessReviewer st).stats) := by
  intro revs
  induction revs with
  | nil => intro _ m st hm; exact hm
  | cons rev revs ih =>
    intro h m st hm
    rw [List.foldl_cons, List.foldl_cons]
    have hrev := h rev (List.mem_cons_self _ _)
    exact ih (fun r hr => h r (List.mem_cons_of_mem _ hr))
      (sim_processReviewer R pr rev hrev.1 hrev.2.1 hrev.2.2 hm)

theorem sim_foldPRs (R : ReviewerStat → ScriptStat → Prop) :
    ∀ (prsL : List PullRequestSummary),
      (∀ pr ∈ prsL, ∀ rev ∈ pr.reviewers.getD [],
        (rev.isRequired.getD false = true → (rev.uniqueName).isSome = true) ∧
        (∀ t s, R t s → R (extendStat pr rev t) (scriptExtend rev s)) ∧
        R (extendStat pr rev (freshStat rev))
          (scriptExtend rev (scriptFresh rev (revKey rev)))) →
      ∀ {m : StatsMap} {st : ScriptLoopState},
        List.Forall₂ (fun a b => a.1 = b.1 ∧ R a.2 b.2) m st.stats →
        List.Forall₂ (fun a b => a.1 = b.1 ∧ R a.2 b.2)
          (prsL.foldl processPR m) ((prsL.foldl scriptProcessPR st).stats) := by
  intro prsL
  induction prsL with
  | nil => intro _ m st hm; exact hm
  | cons pr prsL ih =>
    intro h m st hm
    rw [List.foldl_cons, List.foldl_cons]
    exact ih (fun p hp => h p (List.mem_cons_of_mem _ hp))
      (sim_foldRevs R pr (pr.reviewers.getD [])
        (h pr (List.mem_cons_self _ _)) hm)

theorem sim_statsMap (R : ReviewerStat → ScriptStat → Prop)
    (prs : List PullRequestSummary)
    (h : ∀ pr ∈ prs, ∀ rev ∈ pr.reviewers.getD [],
      (rev.isRequired.getD false = true → (rev.uniqueName).isSome = true) ∧
      (∀ t s, R t s → R (extendStat pr rev t) (scriptExtend rev s)) ∧
      R (extendStat pr rev (freshStat rev))
        (scriptExtend rev (scriptFresh rev (revKey rev)))) :
    List.Forall₂ (fun a b => a.1 = b.1 ∧ R a.2 b.2)
      (statsMapOf prs) (scriptStatsMapOf prs) := by
  unfold statsMapOf scriptStatsMapOf
  exact sim_foldPRs R (nonDraftPRs prs)
    (fun pr hpr => h pr (List.mem_filter.mp hpr).1) List.Forall₂.nil

/-- One assignment preserves Required equality and the Blocked =
waitingForAuthor + rejected correspondence for ANY vote. -/
theorem extend_preserves_required_blocked (pr : PullRequestSummary)
    (rev : ReviewerAssignment) (t : ReviewerStat) (s : ScriptStat)
    (h : t.requiredCount = s.Required ∧
      t.waitingForAuthorCount + t.rejectedCount = s.Blocked) :
    (extendStat pr rev t).requiredCount = (scriptExtend rev s).Required ∧
      (extendStat pr rev t).waitingForAuthorCount + (extendStat pr rev t).rejectedCount
        = (scriptExtend rev s).Blocked := by
  obtain ⟨h1, h2⟩ := h
  by_cases h10 : 10 ≤ rev.vote.getD 0
  · simp [extendStat, scriptExtend, classifyVote, h10,
      show 5 ≤ rev.vote.getD 0 by omega, h1, h2]
  · by_cases hm5 : rev.vote.getD 0 = -5
    · simp [extendStat, scriptExtend, classifyVote, h10, hm5, h1, h2]
      omega
    · by_cases hlo : rev.vote.getD 0 ≤ -10
      · simp [extendStat, scriptExtend, classifyVote, h10, hm5, hlo,
          show ¬ 5 ≤ rev.vote.getD 0 by omega, h1, h2]
        omega
      · by_cases h5 : 5 ≤ rev.vote.getD 0
        · simp [extendStat, scriptExtend, classifyVote, h10, hm5, hlo, h5, h1, h2]
        · simp [extendStat, scriptExtend, classifyVote, h10, hm5, hlo, h5, h1, h2]

/-- When the vote is outside [5, 10) the two classifications also agree on
Approved and Unreviewed. -/
theorem extend_preserves_all_buckets (pr : PullRequestSummary)
    (rev : ReviewerAssignment)
    (hv : ¬(5 ≤ rev.vote.getD 0 ∧ rev.vote.getD 0 < 10))
    (t : ReviewerStat) (s : ScriptStat)
    (h : t.requiredCount = s.Required ∧
      t.waitingForAuthorCount + t.rejectedCount = s.Blocked ∧
      t.approvedCount = s.Approved ∧ t.pendingCount = s.Unreviewed) :
    (extendStat pr rev t).requiredCount = (scriptExtend rev s).Required ∧
      (extendStat pr rev t).waitingForAuthorCount + (extendStat pr rev t).rejectedCount
        = (scriptExtend rev s).Blocked ∧
      (extendStat pr rev t).approvedCount = (scriptExtend rev s).Approved ∧
      (extendStat pr rev t).pendingCount = (scriptExtend rev s).Unreviewed := by
  obtain ⟨h1, h2, h3, h4⟩ := h
  by_cases h10 : 10 ≤ rev.vote.getD 0
  · simp [extendStat, scriptExtend, classifyVote, h10,
      show 5 ≤ rev.vote.getD 0 by omega, h1, h2, h3, h4]
  · have h5 : ¬ 5 ≤ rev.vote.getD 0 := fun hc => hv ⟨hc, by omega⟩
    by_cases hm5 : rev.vote.getD 0 = -5
    · simp [extendStat, scriptExtend, classifyVote, h10, h5, hm5, h1, h2, h3, h4]
      omega
    · by_cases hlo : rev.vote.getD 0 ≤ -10
      · simp [extendStat, scriptExtend, classifyVote, h10, h5, hm5, hlo, h1, h2, h3, h4]
        omega
      · simp [extendStat, scriptExtend, classifyVote, h10, h5, hm5, hlo, h1, h2, h3, h4]

/-- C4 amended: provided every required assignment carries a uniqueName
(when one is missing the script's un-guarded ToLower() errors and the
assignment is mis-attributed to the stale previous email, while the tool
skips it — see the counterexample), the tool and the script build the same
reviewer key sequence with equal Required counts, and the script's
Blocked equals the tool's waitingForAuthorCount + rejectedCount; when
additionally no assignment carries a vote in [5, 10) the Approved and
Unreviewed counts also coincide with the tool's approvedCount and
pendingCount. -/
theorem tool_script_per_reviewer_agreement (prs : List PullRequestSummary)
    (hnames : ∀ pr ∈ prs, ∀ rev ∈ pr.reviewers.getD [],
      rev.isRequired.getD false = true → (rev.uniqueName).isSome = true) :
    List.Forall₂ (fun a b => a.1 = b.1 ∧ a.2.requiredCount = b.2.Required ∧
        a.2.waitingForAuthorCount + a.2.rejectedCount = b.2.Blocked)
      (statsMapOf prs) (scriptStatsMapOf prs) ∧
    ((∀ pr ∈ prs, ∀ rev ∈ pr.reviewers.getD [],
        ¬(5 ≤ rev.vote.getD 0 ∧ rev.vote.getD 0 < 10)) →
      List.Forall₂ (fun a b => a.1 = b.1 ∧ a.2.requiredCount = b.2.Required ∧
          a.2.waitingForAuthorCount + a.2.rejectedCount = b.2.Blocked ∧
          a.2.approvedCount = b.2.Approved ∧ a.2.pendingCount = b.2.Unreviewed)
        (statsMapOf prs) (scriptStatsMapOf prs)) := by
  constructor
  · exact sim_statsMap
      (fun t s => t.requiredCount = s.Required ∧
        t.waitingForAuthorCount + t.rejectedCount = s.Blocked)
      prs
      (fun pr hpr rev hrev =>
        ⟨hnames pr hpr rev hrev,
         fun t s h => extend_preserves_required_blocked pr rev t s h,
         extend_preserves_required_blocked pr rev _ _ ⟨rfl, rfl⟩⟩)
  · intro hv
    exact sim_statsMap
      (fun t s => t.requiredCount = s.Required ∧
        t.waitingForAuthorCount + t.rejectedCount = s.Blocked ∧
        t.approvedCount = s.Approved ∧ t.pendingCount = s.Unreviewed)
      prs
      (fun pr hpr rev hrev =>
        ⟨hnames pr hpr rev hrev,
         fun t s h => extend_preserves_all_buckets pr rev (hv pr hpr rev hrev) t s h,
         extend_preserves_all_buckets pr rev (hv pr hpr rev hrev) _ _
           ⟨rfl, rfl, rfl, rfl⟩⟩)

/-- Counterexample for C4 as stated.  On a single non-draft PR whose one
required reviewer voted 5 (Approved with suggestions), the script counts
Approved = 1 / Unreviewed = 0 while the tool counts approvedCount = 0 /
pendingCount = 1, and the qualifying (reviewer, badge) sets differ beyond
the Benchwarmer test: the tool records only Benchwarmer while the script
records Benchwarmer AND Speed Demon for the same reviewer.  And on a PR
whose second required reviewer has no uniqueName, the script's un-guarded
ToLower() errors and mis-attributes that assignment to the stale previous
email (Required = 2 for a@b.com) while the tool skips it (requiredCount =
1), so even the Required counts disagree. -/
theorem tool_script_divergence_at_vote5 :
    (lookupKey (statsMapOf exC4) "a@b.com").map
        (fun t => (t.approvedCount, t.pendingCount)) = some (0, 1) ∧
    (lookupKey (scriptStatsMapOf exC4) "a@b.com").map
        (fun s => (s.Approved, s.Unreviewed)) = some (1, 0) ∧
    (lookupKey (statsMapOf exC4null) "a@b.com").map
        (fun t => t.requiredCount) = some 1 ∧
    (lookupKey (scriptStatsMapOf exC4null) "a@b.com").map
        (fun s => s.Required) = some 2 ∧
    (assignBadges (displayFilter (reviewerStatsOf exC4) true)).map
        (fun b => b.title) = ["Benchwarmer"] ∧
    (scriptApplicableBadges ((scriptStatsMapOf exC4).map (fun e => e.2))).map
        (fun p => p.1) = ["Benchwarmer", "Speed Demon"] := by
  refine ⟨by decide, by decide, by decide, by decide, ?_, ?_⟩
  · have hstats : displayFilter (reviewerStatsOf exC4) true = [tC4] := by decide
    rw [hstats]
    norm_num [assignBadges, badgeForReviewer, avgRequiredOf, isHighVolume,
      isLowVolume, isMedVolume, completionRate, unreviewedRate, tC4, List.filterMap]
  · have hs : (scriptStatsMapOf exC4).map (fun e => e.2) = [sSC4] := by decide
    rw [hs]
    norm_num [scriptApplicableBadges, scriptBadgeRules, scriptAvgRequired, sSC4,
      List.filter]

/-- Witness for the amended C4 at a concrete input whose required
assignments all carry a uniqueName and whose votes are 10, -5, -10 (none
in [5, 10)). -/
theorem tool_script_per_reviewer_agreement_witness :
    (∀ pr ∈ exC4w, ∀ rev ∈ pr.reviewers.getD [],
      rev.isRequired.getD false = true → (rev.uniqueName).isSome = true) ∧
    (∀ pr ∈ exC4w, ∀ rev ∈ pr.reviewers.getD [],
      ¬(5 ≤ rev.vote.getD 0 ∧ rev.vote.getD 0 < 10)) ∧
    List.Forall₂ (fun a b => a.1 = b.1 ∧ a.2.requiredCount = b.2.Required ∧
        a.2.waitingForAuthorCount + a.2.rejectedCount = b.2.Blocked ∧
        a.2.approvedCount = b.2.Approved ∧ a.2.pendingCount = b.2.Unreviewed)
      (statsMapOf exC4w) (scriptStatsMapOf exC4w) :=
  ⟨by decide, by decide,
   (tool_script_per_reviewer_agreement exC4w (by decide)).2 (by decide)⟩
